import Mathlib

/-!
# tinyshim: the embedded payload descriptor of `shim/linux/payload.c`

`payload.c` is a data-only translation unit.  It declares `struct Payload`
and defines four objects, each with an explicit `__section__` attribute:

* `payload`  (a `struct Payload`)        in `.payload`
* `exec`     (a `const char[]`)          in `.payload_rodata`
* `argv_pre` (a `const char *[]`)        in `.payload`
* `hello`    (a `const char[]`)          in `.payload_rodata`

The embedding keeps, for every object, its declared type, its section and
attributes and its initialiser.  Pointers are symbolic: an object name plus
an element offset (an array name used as a value decays to offset `0`).
Reading memory is the C semantics of dereferencing such a pointer inside
the bounds of the object it names.  The tentative declarations on lines 9,
10 and 19 only announce names; type, section and contents are those of the
definitions that follow them.
-/

namespace Tinyshim

/-! ## Types of the translation unit -/

/-- C types occurring in `payload.c`.  `const t` is the const-qualified version of `t`,
`array t` is the incomplete/complete array type `t[]`. -/
inductive Ty where
  | char : Ty
  | size_t : Ty
  | const : Ty → Ty
  | ptr : Ty → Ty
  | array : Ty → Ty
  | struct : String → Ty
  deriving DecidableEq, Repr

/-- Member declaration of a struct. -/
structure Field where
  name : String
  ty : Ty
  deriving DecidableEq, Repr

/-- Symbolic address: element `off` of the object called `obj`. -/
structure Ptr where
  obj : String
  off : Nat
  deriving DecidableEq, Repr

/-- Value of a `struct Payload` object: one value per member, in declaration order. -/
structure Payload where
  exec : Ptr
  argc_pre : Nat
  argv_pre : Ptr
  deriving DecidableEq, Repr

/-- Member declarations of `struct Payload`, lines 3-7:
`const char *exec; const size_t argc_pre; const char **argv_pre;`. -/
def Payload.fields : List Field :=
  [ ⟨"exec", .ptr (.const .char)⟩,
    ⟨"argc_pre", .const .size_t⟩,
    ⟨"argv_pre", .ptr (.ptr (.const .char))⟩ ]

/-! ## Objects and their initialisers -/

/-- Initialisers used in `payload.c`. -/
inductive Init where
  /-- Char array initialised from a string literal. -/
  | string : String → Init
  /-- Array of pointers initialised from a brace list of addresses. -/
  | addrs : List Ptr → Init
  /-- Designated initialiser of a `struct Payload`. -/
  | record : Payload → Init
  deriving DecidableEq, Repr

/-- File-scope object definition with its `__attribute__((__section__(..), used, retain))`. -/
structure Object where
  name : String
  ty : Ty
  sect : String
  used : Bool
  retain : Bool
  init : Init
  deriving DecidableEq, Repr

/-- An array name used as a value decays to a pointer to its first element. -/
def decay (name : String) : Ptr := ⟨name, 0⟩

/-- Line 18: `const char exec[] __attribute__((__section__(".payload_rodata"), used, retain)) = "/bin/echo";` -/
def exec : Object :=
  { name := "exec", ty := .array (.const .char), sect := ".payload_rodata",
    used := true, retain := true, init := .string "/bin/echo" }

/-- Line 21: `const char hello[] __attribute__((__section__(".payload_rodata"), used, retain)) = "Hello";` -/
def hello : Object :=
  { name := "hello", ty := .array (.const .char), sect := ".payload_rodata",
    used := true, retain := true, init := .string "Hello" }

/-- Line 20: `const char *argv_pre[] __attribute__((__section__(".payload"), used, retain)) = {hello};` -/
def argv_pre : Object :=
  { name := "argv_pre", ty := .array (.ptr (.const .char)), sect := ".payload",
    used := true, retain := true, init := .addrs [decay "hello"] }

/-- Lines 12-16: `struct Payload payload __attribute__((__section__(".payload"), used, retain)) =
{ .exec = exec, .argc_pre = 1, .argv_pre = argv_pre };` -/
def payload : Object :=
  { name := "payload", ty := .struct "Payload", sect := ".payload",
    used := true, retain := true,
    init := .record { exec := decay "exec", argc_pre := 1, argv_pre := decay "argv_pre" } }

/-- Objects defined by the translation unit, in definition order. -/
def objects : List Object := [payload, exec, argv_pre, hello]

/-- Object with the given name, if the translation unit defines one. -/
def lookup (name : String) : Option Object :=
  objects.find? (fun o => o.name == name)

/-! ## Memory contents -/

/-- Bytes of a string literal (the literals of this file are ASCII), without terminator. -/
def litBytes (s : String) : List Nat := s.toList.map Char.toNat

/-- Bytes stored for a char array initialised from a literal: the literal and one `0` byte. -/
def arrayBytes (s : String) : List Nat := litBytes s ++ [0]

/-- Bytes of a char-array object; `none` for objects that are not char arrays. -/
def Object.bytes (o : Object) : Option (List Nat) :=
  match o.init with
  | .string s => some (arrayBytes s)
  | _ => none

/-- Entries of a pointer-table object; `none` for other objects. -/
def Object.entries (o : Object) : Option (List Ptr) :=
  match o.init with
  | .addrs ps => some ps
  | _ => none

/-- Struct value of a `struct Payload` object; `none` for other objects. -/
def Object.record (o : Object) : Option Payload :=
  match o.init with
  | .record v => some v
  | _ => none

/-- Number of elements of an object (`1` for the struct). -/
def Object.count (o : Object) : Nat :=
  match o.init with
  | .string s => (arrayBytes s).length
  | .addrs ps => ps.length
  | .record _ => 1

/-- Bytes before the first `0` byte; `none` when the bytes hold no `0` (unterminated). -/
def cstr : List Nat → Option (List Nat)
  | [] => none
  | b :: bs => if b = 0 then some [] else (cstr bs).map (b :: ·)

/-- Bytes of the C string a `char` pointer refers to, read inside the bounds of its object. -/
def strBytesAt (p : Ptr) : Option (List Nat) := do
  let o ← lookup p.obj
  let bs ← o.bytes
  if p.off ≤ bs.length then cstr (bs.drop p.off) else none

/-- The same string as text. -/
def strAt (p : Ptr) : Option String :=
  (strBytesAt p).map (fun bs => String.mk (bs.map Char.ofNat))

/-- Entry `i` of the pointer table `p` refers to (`p[i]`), read inside the bounds of its object. -/
def entryAt (p : Ptr) (i : Nat) : Option Ptr := do
  let o ← lookup p.obj
  let ps ← o.entries
  ps[p.off + i]?

/-- The descriptor value stored in the object `payload`. -/
def descriptor : Option Payload := payload.record

/-- Following `d.exec` to its string. -/
def resolveExec (d : Payload) : Option String := strAt d.exec

/-- Following each of the first `d.argc_pre` entries of `d.argv_pre` to its string, in
table order. -/
def resolveArgs (d : Payload) : Option (List String) :=
  (List.range d.argc_pre).mapM (fun i => (entryAt d.argv_pre i).bind strAt)

/-- Pointers to byte sequences reachable from the descriptor: `d.exec`, then
`d.argv_pre[i]` for `i < d.argc_pre`. -/
def referenced (d : Payload) : Option (List Ptr) :=
  ((List.range d.argc_pre).mapM (fun i => entryAt d.argv_pre i)).map (d.exec :: ·)

/-! ## Struct layout -/

/-- Sizes and alignments of the scalar types on a target. -/
structure Target where
  ptrSize : Nat
  ptrAlign : Nat
  wordSize : Nat
  wordAlign : Nat
  deriving Repr

/-- Size of a scalar member type (`none` for types that are not scalar). -/
def Ty.size (t : Target) : Ty → Option Nat
  | .char => some 1
  | .size_t => some t.wordSize
  | .ptr _ => some t.ptrSize
  | .const u => u.size t
  | _ => none

/-- Alignment of a scalar member type. -/
def Ty.align (t : Target) : Ty → Option Nat
  | .char => some 1
  | .size_t => some t.wordAlign
  | .ptr _ => some t.ptrAlign
  | .const u => u.align t
  | _ => none

/-- Smallest multiple of `a` that is at least `n`. -/
def alignUp (n a : Nat) : Nat := (n + a - 1) / a * a

/-- Result of laying out a struct: member offsets, size and alignment. -/
structure Layout where
  offsets : List Nat
  size : Nat
  align : Nat
  deriving DecidableEq, Repr

/-- Places the members one after another from offset `off`, each at the next multiple of its
alignment; returns the offsets, the end of the last member and the largest alignment. -/
def place (t : Target) : List Field → Nat → Nat → Option (List Nat × Nat × Nat)
  | [], off, al => some ([], off, al)
  | f :: fs, off, al => do
    let sz ← f.ty.size t
    let a ← f.ty.align t
    let o := alignUp off a
    let (os, e, m) ← place t fs (o + sz) (max al a)
    pure (o :: os, e, m)

/-- C struct layout: members in declaration order, tail padded to the struct alignment. -/
def layout (t : Target) (fs : List Field) : Option Layout := do
  let (os, e, m) ← place t fs 0 1
  pure { offsets := os, size := alignUp e m, align := m }

/-- Target whose pointers and `size_t` are both `w` bytes wide and naturally aligned. -/
def wordTarget (w : Nat) : Target :=
  { ptrSize := w, ptrAlign := w, wordSize := w, wordAlign := w }

/-! ## Helper lemmas -/

theorem alignUp_of_dvd {n a : Nat} (h : a ∣ n) : alignUp n a = n := by
  obtain ⟨k, rfl⟩ := h
  rcases Nat.eq_zero_or_pos a with rfl | ha
  · simp [alignUp]
  · have h1 : a * k + a - 1 = a - 1 + a * k := by omega
    have h2 : (a - 1) / a = 0 := Nat.div_eq_of_lt (by omega)
    rw [alignUp, h1, Nat.add_mul_div_left _ _ ha, h2, Nat.zero_add, Nat.mul_comm]

theorem max_dvd_of_dvd {a b n : Nat} (ha : a ∣ n) (hb : b ∣ n) : max a b ∣ n := by
  rcases Nat.le_total a b with h | h
  · rwa [Nat.max_eq_right h]
  · rwa [Nat.max_eq_left h]

/-! ## Struct layout of the descriptor -/

/-- C7: `struct Payload` has exactly the three members `exec`, `argc_pre`, `argv_pre`, in
that order, of types pointer, `size_t` and pointer.  On a target whose pointers and `size_t`
are both `w` bytes wide (and whose alignments divide that size, as C requires), the member
offsets are `0`, `w` and `2 * w` and the struct is `3 * w` bytes: the sum of the member sizes,
so there is no padding. -/
theorem Payload_layout (t : Target) (w : Nat)
    (hp : t.ptrSize = w) (hs : t.wordSize = w)
    (hpa : t.ptrAlign ∣ w) (hsa : t.wordAlign ∣ w) :
    Payload.fields.map Field.name = ["exec", "argc_pre", "argv_pre"] ∧
    Payload.fields.map Field.ty =
      [.ptr (.const .char), .const .size_t, .ptr (.ptr (.const .char))] ∧
    Payload.fields.map (fun f => f.ty.size t) = [some w, some w, some w] ∧
    (layout t Payload.fields).map Layout.offsets = some [0, w, 2 * w] ∧
    (layout t Payload.fields).map Layout.size = some (3 * w) := by
  have o1 : alignUp 0 t.ptrAlign = 0 := alignUp_of_dvd (Nat.dvd_zero _)
  have o2 : alignUp w t.wordAlign = w := alignUp_of_dvd hsa
  have o3 : alignUp (w + w) t.ptrAlign = w + w := alignUp_of_dvd (Nat.dvd_add hpa hpa)
  have hm : max (max (max 1 t.ptrAlign) t.wordAlign) t.ptrAlign ∣ w + w + w :=
    max_dvd_of_dvd (max_dvd_of_dvd (max_dvd_of_dvd (Nat.one_dvd _)
      (Nat.dvd_add (Nat.dvd_add hpa hpa) hpa)) (Nat.dvd_add (Nat.dvd_add hsa hsa) hsa))
      (Nat.dvd_add (Nat.dvd_add hpa hpa) hpa)
  have o4 := alignUp_of_dvd hm
  refine ⟨by decide, by decide, ?_, ?_, ?_⟩
  · simp only [Payload.fields, Ty.size, hp, hs, List.map_cons, List.map_nil]
  · simp only [layout, place, Payload.fields, Ty.size, Ty.align, hp, hs, o1, Nat.zero_add, o2, o3,
      Option.bind_eq_bind, Option.some_bind, Option.pure_def, Option.map_some', Nat.two_mul]
  · simp only [layout, place, Payload.fields, Ty.size, Ty.align, hp, hs, o1, Nat.zero_add, o2, o3,
      Option.bind_eq_bind, Option.some_bind, Option.pure_def, Option.map_some', o4]
    congr 1
    omega

/-- Witness for C7: the 64-bit Linux target (8-byte pointers and `size_t`) gives offsets
`0`, `8`, `16` and size `24`. -/
theorem Payload_layout_witness :
    (8 ∣ 8) ∧
    (layout (wordTarget 8) Payload.fields).map Layout.offsets = some [0, 8, 16] ∧
    (layout (wordTarget 8) Payload.fields).map Layout.size = some 24 :=
  ⟨dvd_refl 8,
   (Payload_layout (wordTarget 8) 8 rfl rfl (dvd_refl 8) (dvd_refl 8)).2.2.2.1,
   (Payload_layout (wordTarget 8) 8 rfl rfl (dvd_refl 8) (dvd_refl 8)).2.2.2.2⟩

/-! ## The embedded descriptor -/

/-- C1: resolving the embedded descriptor (following `payload.exec` to its string and each of
the first `payload.argc_pre` entries of `payload.argv_pre` to its string, in table order)
yields the executable path "/bin/echo" and the argument list ["Hello"], which has exactly
one element. -/
theorem payload_resolves_to_echo_hello :
    ∃ d args, descriptor = some d ∧
      resolveExec d = some "/bin/echo" ∧
      resolveArgs d = some args ∧
      args = ["Hello"] ∧ args.length = 1 :=
  ⟨_, _, rfl, by decide, by decide, rfl, rfl⟩

/-- C2: the declared count `payload.argc_pre` equals the number of entries of the table
`payload.argv_pre` points to (it points to the first entry of `argv_pre`), and that number
is exactly 1. -/
theorem payload_argc_pre_eq_table_length :
    ∃ d tbl, descriptor = some d ∧
      lookup d.argv_pre.obj = some tbl ∧ tbl = argv_pre ∧ d.argv_pre.off = 0 ∧
      tbl.entries.map List.length = some d.argc_pre ∧
      d.argc_pre = tbl.count ∧ d.argc_pre = 1 :=
  ⟨_, _, rfl, by decide, rfl, rfl, by decide, by decide, rfl⟩

/-- C3: every byte sequence the descriptor references, through `payload.exec` or through
`argv_pre[i]` for `i < argc_pre`, starts inside an object placed in ".payload_rodata" (and so
in no other section) and lies, terminator included, within the bounds of that object. -/
theorem referenced_strings_in_payload_rodata :
    ∃ d ps, descriptor = some d ∧ referenced d = some ps ∧
      ps.length = 1 + d.argc_pre ∧
      ∀ p ∈ ps, ∃ o bs str, lookup p.obj = some o ∧
        o.sect = ".payload_rodata" ∧
        (∀ q ∈ objects, q.name = p.obj → q.sect = ".payload_rodata") ∧
        o.bytes = some bs ∧ strBytesAt p = some str ∧
        p.off + str.length + 1 ≤ bs.length := by
  refine ⟨_, [decay "exec", decay "hello"], rfl, by decide, by decide, ?_⟩
  intro p hp
  simp only [List.mem_cons, List.mem_singleton, List.mem_nil_iff, or_false] at hp
  rcases hp with rfl | rfl
  · exact ⟨exec, _, litBytes "/bin/echo", by decide, by decide, by decide, rfl, by decide, by decide⟩
  · exact ⟨hello, _, litBytes "Hello", by decide, by decide, by decide, rfl, by decide, by decide⟩

/-- C4 as stated fails: the pointer table `payload.argv_pre` points to is not placed in
".payload_rodata". -/
theorem argv_pre_table_not_in_payload_rodata :
    ¬ ((descriptor.bind (fun d => lookup d.argv_pre.obj)).map Object.sect
          = some ".payload_rodata" ∧
        exec.sect = ".payload_rodata" ∧ hello.sect = ".payload_rodata") := by
  decide

/-- C4 (amended): every string the descriptor references (through `payload.exec` and through
`argv_pre[i]` for `i < argc_pre`, which are the arrays `exec` and `hello`) is a char array
placed in ".payload_rodata", which is not the descriptor's own section; the pointer table
`payload.argv_pre` points to is `argv_pre`, and it is placed in ".payload", the section of
the descriptor itself. -/
theorem strings_in_payload_rodata_table_in_payload :
    ∃ d ps tbl, descriptor = some d ∧ referenced d = some ps ∧
      ps = [decay "exec", decay "hello"] ∧
      (∀ p ∈ ps, ∃ o bs, lookup p.obj = some o ∧ o.bytes = some bs ∧
        o.sect = ".payload_rodata" ∧ o.sect ≠ payload.sect) ∧
      lookup (decay "exec").obj = some exec ∧ lookup (decay "hello").obj = some hello ∧
      exec.sect = ".payload_rodata" ∧ hello.sect = ".payload_rodata" ∧
      exec.sect ≠ payload.sect ∧ hello.sect ≠ payload.sect ∧
      lookup d.argv_pre.obj = some tbl ∧ tbl = argv_pre ∧
      tbl.entries.map List.length = some d.argc_pre ∧
      tbl.sect = ".payload" ∧ tbl.sect = payload.sect ∧ tbl.sect ≠ ".payload_rodata" := by
  have hstr : ∀ p ∈ [decay "exec", decay "hello"], ∃ o bs, lookup p.obj = some o ∧
      o.bytes = some bs ∧ o.sect = ".payload_rodata" ∧ o.sect ≠ payload.sect := by
    intro p hp
    simp only [List.mem_cons, List.mem_singleton, List.mem_nil_iff, or_false] at hp
    rcases hp with rfl | rfl
    · exact ⟨exec, _, by decide, rfl, by decide, by decide⟩
    · exact ⟨hello, _, by decide, rfl, by decide, by decide⟩
  have hrest : lookup (decay "exec").obj = some exec ∧ lookup (decay "hello").obj = some hello ∧
      exec.sect = ".payload_rodata" ∧ hello.sect = ".payload_rodata" ∧
      exec.sect ≠ payload.sect ∧ hello.sect ≠ payload.sect ∧
      lookup (decay "argv_pre").obj = some argv_pre ∧ argv_pre = argv_pre ∧
      argv_pre.entries.map List.length = some 1 ∧
      argv_pre.sect = ".payload" ∧ argv_pre.sect = payload.sect ∧
      argv_pre.sect ≠ ".payload_rodata" := by
    decide
  exact ⟨_, _, argv_pre, rfl, by decide, rfl, hstr, hrest⟩

/-- C5: the descriptor object `payload` is placed in the section named ".payload", the
strings it references (`exec`, and `hello` through the table) are placed in the section
named ".payload_rodata", and the two names differ. -/
theorem section_names :
    payload.sect = ".payload" ∧
    (descriptor.bind (fun d => lookup d.exec.obj)).map Object.sect = some ".payload_rodata" ∧
    (descriptor.bind (fun d => (entryAt d.argv_pre 0).bind (fun p => lookup p.obj))).map
      Object.sect = some ".payload_rodata" ∧
    exec.sect = ".payload_rodata" ∧ hello.sect = ".payload_rodata" ∧
    payload.sect ≠ exec.sect ∧ (".payload" : String) ≠ ".payload_rodata" := by
  decide

/-- C6: the string `payload.exec` points to has at least one byte before its terminating
null byte, so the resolved executable path is not the empty string. -/
theorem payload_exec_nonempty :
    ∃ d bs, descriptor = some d ∧ strBytesAt d.exec = some bs ∧
      1 ≤ bs.length ∧ bs.length = 9 ∧ resolveExec d ≠ some "" :=
  ⟨_, litBytes "/bin/echo", rfl, by decide, by decide, by decide, by decide⟩

/-- C8: the `exec` array is the 9 bytes of "/bin/echo" followed by one 0 byte (10 bytes),
the `hello` array is the 5 bytes of "Hello" followed by one 0 byte (6 bytes), neither
literal holds a 0 byte, and reading either array up to its first 0 byte gives back the
whole literal. -/
theorem strings_null_terminated :
    exec.bytes = some [47, 98, 105, 110, 47, 101, 99, 104, 111, 0] ∧
    exec.bytes = some (litBytes "/bin/echo" ++ [0]) ∧
    (litBytes "/bin/echo").length = 9 ∧ exec.count = 10 ∧
    0 ∉ litBytes "/bin/echo" ∧
    exec.bytes.bind cstr = some (litBytes "/bin/echo") ∧
    strAt (decay "exec") = some "/bin/echo" ∧
    hello.bytes = some [72, 101, 108, 108, 111, 0] ∧
    hello.bytes = some (litBytes "Hello" ++ [0]) ∧
    (litBytes "Hello").length = 5 ∧ hello.count = 6 ∧
    0 ∉ litBytes "Hello" ∧
    hello.bytes.bind cstr = some (litBytes "Hello") ∧
    strAt (decay "hello") = some "Hello" := by
  decide

end Tinyshim
